import Mathlib

/-
Verification development for the cf_exporter metadata subsystem.

Shallow embedding of:
  - collectors/MetadataCollector (src/unnamed/part_000): the label
    propagation engine (reportMetadataMetrics) and the scrape entry
    point (Collect), with the three Prometheus GaugeVec objects modelled
    as finite sets of label-sample tuples kept in the collector state
    (a GaugeVec child is identified by its full label tuple; Set(1) on
    an existing child overwrites, so the children form a set).
  - fetcher/fetcher.go: task plan construction (workInit) and the
    snapshot fetch entry point (fetch).

Go maps of metadata labels are embedded as association lists of
(key, value) pairs; the Go map invariant (keys unique) appears as an
explicit Nodup hypothesis where a theorem counts samples.
-/

namespace CFExporter

/-- A metadata label set: the entries of a Go map from string keys to string values. -/
abbrev Labels := List (String × String)

/-- A Cloud Foundry organization as read by the collector: GUID, name, labels. -/
structure Organization where
  guid : String
  name : String
  labels : Labels
deriving DecidableEq

/-- A Cloud Foundry space: GUID, name, the GUID carried by the
Relationships["organization"] link (none when the relationship is absent), labels. -/
structure Space where
  guid : String
  name : String
  orgRel : Option String
  labels : Labels
deriving DecidableEq

/-- A Cloud Foundry application: GUID, name, the GUID carried by the
Relationships["space"] link (none when absent), labels. -/
structure Application where
  guid : String
  name : String
  spaceRel : Option String
  labels : Labels
deriving DecidableEq

/-- GUID-keyed index lookup (models.CFObjects map access m[guid]). -/
def idxLookup {α : Type} (m : List (String × α)) (g : String) : Option α :=
  match m with
  | [] => none
  | (k, v) :: rest => if k = g then some v else idxLookup rest g

/-- The snapshot (models.CFObjects) as consumed by the metadata collector:
ordered entity collections, GUID-keyed indices, the top-level Error, and Took. -/
structure CFObjects where
  organizations : List Organization
  spaces : List Space
  applications : List Application
  organizationsMap : List (String × Organization)
  spacesMap : List (String × Space)
  error : Option String
  took : Rat
deriving DecidableEq

/-- One sample of the organization metadata GaugeVec: label tuple plus numeric value. -/
structure OrgSample where
  organization_id : String
  organization_name : String
  label_key : String
  label_value : String
  value : Nat
deriving DecidableEq

/-- One sample of the space metadata GaugeVec. -/
structure SpaceSample where
  space_id : String
  space_name : String
  organization_id : String
  organization_name : String
  label_key : String
  label_value : String
  value : Nat
deriving DecidableEq

/-- One sample of the application metadata GaugeVec. -/
structure AppSample where
  application_id : String
  application_name : String
  organization_id : String
  organization_name : String
  space_id : String
  space_name : String
  label_key : String
  label_value : String
  value : Nat
deriving DecidableEq

/-- The organization sample written by the organization loop: With(labels).Set(1). -/
def mkOrgSample (org : Organization) (kv : String × String) : OrgSample :=
  ⟨org.guid, org.name, kv.1, kv.2, 1⟩

/-- The space sample written by the space loop. -/
def mkSpaceSample (sp : Space) (org : Organization) (kv : String × String) : SpaceSample :=
  ⟨sp.guid, sp.name, org.guid, org.name, kv.1, kv.2, 1⟩

/-- The application own-label sample (key unprefixed). -/
def mkAppOwnSample (app : Application) (sp : Space) (org : Organization)
    (kv : String × String) : AppSample :=
  ⟨app.guid, app.name, org.guid, org.name, sp.guid, sp.name, kv.1, kv.2, 1⟩

/-- The application sample carrying an organization label, key prefixed org_. -/
def mkAppOrgSample (app : Application) (sp : Space) (org : Organization)
    (kv : String × String) : AppSample :=
  ⟨app.guid, app.name, org.guid, org.name, sp.guid, sp.name, "org_" ++ kv.1, kv.2, 1⟩

/-- The application sample carrying a space label, key prefixed space_. -/
def mkAppSpaceSample (app : Application) (sp : Space) (org : Organization)
    (kv : String × String) : AppSample :=
  ⟨app.guid, app.name, org.guid, org.name, sp.guid, sp.name, "space_" ++ kv.1, kv.2, 1⟩

/-- State of the three metadata GaugeVec objects held by the collector.
A GaugeVec keeps one child per distinct label tuple, hence a Finset. -/
structure VecState where
  orgVec : Finset OrgSample
  spaceVec : Finset SpaceSample
  appVec : Finset AppSample
deriving DecidableEq

/-- The warnings logged by reportMetadataMetrics (log.Warnf call sites).
The same two space-related messages are produced from both the space loop
and the application loop, matching the source. -/
inductive Warning where
  | spaceNoOrgRel (spaceGUID : String)
  | orgNotFoundForSpace (orgGUID spaceGUID : String)
  | appNoSpaceRel (appGUID : String)
  | spaceNotFoundForApp (spaceGUID appGUID : String)
deriving DecidableEq

/-- The organization loop of reportMetadataMetrics: for each organization,
for each label entry, insert the sample into the organization GaugeVec. -/
def orgLoop (orgs : List Organization) (v : Finset OrgSample) : Finset OrgSample :=
  orgs.foldl
    (fun acc org => org.labels.foldl (fun a kv => insert (mkOrgSample org kv) a) acc) v

/-- One iteration of the space loop of reportMetadataMetrics: resolve the
organization relationship, warn and continue on failure, else write one
sample per label. -/
def spaceStep (objs : CFObjects) (acc : Finset SpaceSample × List Warning)
    (sp : Space) : Finset SpaceSample × List Warning :=
  match sp.orgRel with
  | none => (acc.1, acc.2 ++ [Warning.spaceNoOrgRel sp.guid])
  | some orgGUID =>
    match idxLookup objs.organizationsMap orgGUID with
    | none => (acc.1, acc.2 ++ [Warning.orgNotFoundForSpace orgGUID sp.guid])
    | some org =>
      (sp.labels.foldl (fun a kv => insert (mkSpaceSample sp org kv) a) acc.1, acc.2)

/-- One iteration of the application loop of reportMetadataMetrics: resolve
space then its organization, warn and continue on any failure, else write the
own, org-prefixed and space-prefixed sample groups. -/
def appStep (objs : CFObjects) (acc : Finset AppSample × List Warning)
    (app : Application) : Finset AppSample × List Warning :=
  match app.spaceRel with
  | none => (acc.1, acc.2 ++ [Warning.appNoSpaceRel app.guid])
  | some spaceGUID =>
    match idxLookup objs.spacesMap spaceGUID with
    | none => (acc.1, acc.2 ++ [Warning.spaceNotFoundForApp spaceGUID app.guid])
    | some sp =>
      match sp.orgRel with
      | none => (acc.1, acc.2 ++ [Warning.spaceNoOrgRel sp.guid])
      | some orgGUID =>
        match idxLookup objs.organizationsMap orgGUID with
        | none => (acc.1, acc.2 ++ [Warning.orgNotFoundForSpace orgGUID sp.guid])
        | some org =>
          (sp.labels.foldl (fun a kv => insert (mkAppSpaceSample app sp org kv) a)
            (org.labels.foldl (fun a kv => insert (mkAppOrgSample app sp org kv) a)
              (app.labels.foldl (fun a kv => insert (mkAppOwnSample app sp org kv) a)
                acc.1)),
           acc.2)

/-- Result of one reportMetadataMetrics call: the GaugeVec state after the
walk (whose full contents are then emitted by the three Collect(ch) calls at
the end of the function), the warnings logged, and the returned Go error. -/
structure RenderResult where
  vecs : VecState
  warnings : List Warning
  err : Option String
deriving DecidableEq

/-- reportMetadataMetrics from src/unnamed/part_000: organization loop, space
loop, application loop, then emit the three vectors; always returns nil. -/
def reportMetadataMetrics (objs : CFObjects) (st : VecState) : RenderResult :=
  let ov := orgLoop objs.organizations st.orgVec
  let sres := objs.spaces.foldl (spaceStep objs) (st.spaceVec, [])
  let ares := objs.applications.foldl (appStep objs) (st.appVec, sres.2)
  { vecs := ⟨ov, sres.1, ares.1⟩, warnings := ares.2, err := none }

/-- State of the MetadataCollector between Collect calls: the GaugeVec
children (which Prometheus retains between scrapes) and the scalar metrics. -/
structure CollectorState where
  vecs : VecState
  scrapesTotal : Nat
  scrapeErrorsTotal : Nat
  lastError : Nat
  lastTimestamp : Int
  lastDuration : Rat
deriving DecidableEq

/-- The samples one Collect call pushes into the channel: detail samples
(none when the detail walk was not attempted) and the five health metrics
at their post-update values. -/
structure Emission where
  detail : Option VecState
  scrapeErrorsTotal : Nat
  scrapesTotal : Nat
  lastError : Nat
  lastTimestamp : Int
  lastDuration : Rat
deriving DecidableEq

/-- A fresh MetadataCollector as built by NewMetadataCollector: empty
GaugeVecs, zeroed counters and gauges. -/
def NewMetadataCollector : CollectorState :=
  { vecs := ⟨∅, ∅, ∅⟩
    scrapesTotal := 0
    scrapeErrorsTotal := 0
    lastError := 0
    lastTimestamp := 0
    lastDuration := 0 }

/-- Collect from src/unnamed/part_000: on a top-level snapshot error skip the
detail walk, increment the error counter and set the flag; otherwise run
reportMetadataMetrics and branch on its returned error. Always emit the error
counter, increment and emit the attempt counter, set and emit the flag, set the
timestamp gauge to the current time and the duration gauge to Took. -/
def Collect (c : CollectorState) (objs : CFObjects) (now : Int) :
    CollectorState × Emission × List Warning :=
  match objs.error with
  | some _ =>
    ({ c with
       scrapeErrorsTotal := c.scrapeErrorsTotal + 1
       scrapesTotal := c.scrapesTotal + 1
       lastError := 1
       lastTimestamp := now
       lastDuration := objs.took },
     { detail := none
       scrapeErrorsTotal := c.scrapeErrorsTotal + 1
       scrapesTotal := c.scrapesTotal + 1
       lastError := 1
       lastTimestamp := now
       lastDuration := objs.took }, [])
  | none =>
    let r := reportMetadataMetrics objs c.vecs
    match r.err with
    | some _ =>
      ({ vecs := r.vecs
         scrapesTotal := c.scrapesTotal + 1
         scrapeErrorsTotal := c.scrapeErrorsTotal + 1
         lastError := 1
         lastTimestamp := now
         lastDuration := objs.took },
       { detail := some r.vecs
         scrapeErrorsTotal := c.scrapeErrorsTotal + 1
         scrapesTotal := c.scrapesTotal + 1
         lastError := 1
         lastTimestamp := now
         lastDuration := objs.took }, r.warnings)
    | none =>
      ({ vecs := r.vecs
         scrapesTotal := c.scrapesTotal + 1
         scrapeErrorsTotal := c.scrapeErrorsTotal
         lastError := 0
         lastTimestamp := now
         lastDuration := objs.took },
       { detail := some r.vecs
         scrapeErrorsTotal := c.scrapeErrorsTotal
         scrapesTotal := c.scrapesTotal + 1
         lastError := 0
         lastTimestamp := now
         lastDuration := objs.took }, r.warnings)

/-- One render pass over a snapshot starting from empty GaugeVecs (the state
of a freshly constructed collector): the per-pass sample sets of the engine. -/
def renderPass (objs : CFObjects) : RenderResult :=
  reportMetadataMetrics objs ⟨∅, ∅, ∅⟩

/-- Detail samples actually emitted by one Collect call (empty when the
detail walk was not attempted). -/
def emittedDetail (e : Emission) : VecState :=
  match e.detail with
  | none => ⟨∅, ∅, ∅⟩
  | some v => v

/-- Number of detail samples emitted by one Collect call. -/
def detailSampleCount (e : Emission) : Nat :=
  (emittedDetail e).orgVec.card + (emittedDetail e).spaceVec.card +
    (emittedDetail e).appVec.card

end CFExporter

namespace CFExporter

/-- The fixed enumeration of inventory categories of the filters package. -/
inductive Category where
  | organizations
  | spaces
  | applications
  | domains
  | routes
  | securityGroups
  | stacks
  | buildpacks
  | tasks
  | services
  | serviceInstances
  | servicePlans
  | serviceBindings
  | serviceRouteBindings
  | isolationSegments
  | events
  | metadata
deriving DecidableEq

/-- A filter set: which categories are enabled (filters.Filter.Enabled). -/
abbrev CatFilter := Category → Bool

/-- Modelled from the spec: Worker.PushIf (the Worker source is not under
src/) appends the named task to the plan when any of the governing filter
flags is enabled — the variadic enabled-if-any-of-these-flags condition. -/
def pushIf (f : CatFilter) (name : String) (flags : List Category)
    (plan : List String) : List String :=
  if flags.any f then plan ++ [name] else plan

/-- workInit from src/fetcher/fetcher.go: the task plan as the list of task
names pushed, in push order. Push appends unconditionally, PushIf
conditionally. The bound fetch functions are opaque network operations and
are identified here by task name. -/
def workInit (f : CatFilter) : List String :=
  let p0 : List String := ["info"]
  let p1 :=
    if f Category.metadata then
      p0 ++ ["organizations", "spaces", "applications"]
    else
      pushIf f "applications" [Category.applications]
        (pushIf f "spaces" [Category.applications, Category.spaces]
          (pushIf f "organizations" [Category.applications, Category.organizations] p0))
  let p2 := pushIf f "org_quotas" [Category.organizations] p1
  let p3 := pushIf f "space_quotas" [Category.spaces] p2
  let p4 := pushIf f "domains" [Category.domains] p3
  let p5 := pushIf f "process" [Category.applications] p4
  let p6 := pushIf f "routes" [Category.routes] p5
  let p7 := pushIf f "route_services" [Category.routes] p6
  let p8 := pushIf f "security_groups" [Category.securityGroups] p7
  let p9 := pushIf f "stacks" [Category.stacks] p8
  let p10 := pushIf f "buildpacks" [Category.buildpacks] p9
  let p11 := pushIf f "tasks" [Category.tasks] p10
  let p12 := pushIf f "service_brokers" [Category.services] p11
  let p13 := pushIf f "service_offerings" [Category.services] p12
  let p14 := pushIf f "service_instances" [Category.serviceInstances] p13
  let p15 := pushIf f "service_plans" [Category.servicePlans] p14
  let p16 := pushIf f "segments" [Category.isolationSegments] p15
  let p17 := pushIf f "service_bindings" [Category.serviceBindings] p16
  let p18 := pushIf f "service_route_bindings" [Category.serviceRouteBindings] p17
  let p19 := pushIf f "users" [Category.events] p18
  pushIf f "events" [Category.events] p19

/-- Modelled from the spec: models.NewCFObjects (the models source is not
under src/) creates a fresh empty snapshot — a fresh snapshot is created at
the start of each scrape cycle, populated only by the task functions. -/
def NewCFObjects : CFObjects :=
  { organizations := []
    spaces := []
    applications := []
    organizationsMap := []
    spacesMap := []
    error := none
    took := 0 }

/-- Trace of one fetch call: the returned snapshot, the task plan that was
built (none when workInit was never reached), and the tasks handed to the
worker for execution. -/
structure FetchTrace where
  result : CFObjects
  planBuilt : Option (List String)
  tasksExecuted : List String

/-- fetch from src/fetcher/fetcher.go. Session establishment (NewSessionExt)
is an external call whose outcome is the sessionResult parameter; on failure
the fresh snapshot is returned carrying only that error, before workInit or
worker.Do run. Worker.Do is modelled from the spec: it executes each planned
task, each task writing its own category portion of the snapshot (taskEffect),
and returns the aggregate error doError. -/
def fetch (sessionResult : Option String) (f : CatFilter)
    (taskEffect : String → CFObjects → CFObjects) (doError : Option String) :
    FetchTrace :=
  match sessionResult with
  | some e =>
    { result := { NewCFObjects with error := some e }
      planBuilt := none
      tasksExecuted := [] }
  | none =>
    let plan := workInit f
    let res := plan.foldl (fun r n => taskEffect n r) NewCFObjects
    { result := { res with error := doError }
      planBuilt := some plan
      tasksExecuted := plan }

end CFExporter

namespace CFExporter

/-- Resolution of the organization relationship of a space, exactly the
lookup chain of the space loop. -/
def resolveSpaceOrg (objs : CFObjects) (sp : Space) : Option Organization :=
  match sp.orgRel with
  | none => none
  | some orgGUID => idxLookup objs.organizationsMap orgGUID

/-- Resolution of the space and organization of an application, exactly the
lookup chain of the application loop. -/
def resolveApp (objs : CFObjects) (app : Application) :
    Option (Space × Organization) :=
  match app.spaceRel with
  | none => none
  | some spaceGUID =>
    match idxLookup objs.spacesMap spaceGUID with
    | none => none
    | some sp =>
      match resolveSpaceOrg objs sp with
      | none => none
      | some org => some (sp, org)

/-- The warning logged by the space loop for a space whose resolution fails. -/
def spaceFailWarning (objs : CFObjects) (sp : Space) : Option Warning :=
  match sp.orgRel with
  | none => some (Warning.spaceNoOrgRel sp.guid)
  | some orgGUID =>
    match idxLookup objs.organizationsMap orgGUID with
    | none => some (Warning.orgNotFoundForSpace orgGUID sp.guid)
    | some _ => none

/-- The warning logged by the application loop for an application whose
resolution fails. -/
def appFailWarning (objs : CFObjects) (app : Application) : Option Warning :=
  match app.spaceRel with
  | none => some (Warning.appNoSpaceRel app.guid)
  | some spaceGUID =>
    match idxLookup objs.spacesMap spaceGUID with
    | none => some (Warning.spaceNotFoundForApp spaceGUID app.guid)
    | some sp =>
      match sp.orgRel with
      | none => some (Warning.spaceNoOrgRel sp.guid)
      | some orgGUID =>
        match idxLookup objs.organizationsMap orgGUID with
        | none => some (Warning.orgNotFoundForSpace orgGUID sp.guid)
        | some _ => none

/-- The samples one organization contributes to the organization vector. -/
def orgOwn (org : Organization) : List OrgSample :=
  org.labels.map (mkOrgSample org)

/-- The samples one space contributes to the space vector: none when its
organization does not resolve, one per label otherwise. -/
def spaceContrib (objs : CFObjects) (sp : Space) : List SpaceSample :=
  match resolveSpaceOrg objs sp with
  | none => []
  | some org => sp.labels.map (mkSpaceSample sp org)

/-- The samples one application contributes to the application vector: none
when resolution fails, else the own, org-prefixed and space-prefixed groups. -/
def appContrib (objs : CFObjects) (app : Application) : List AppSample :=
  match resolveApp objs app with
  | none => []
  | some (sp, org) =>
    app.labels.map (mkAppOwnSample app sp org) ++
      org.labels.map (mkAppOrgSample app sp org) ++
        sp.labels.map (mkAppSpaceSample app sp org)

/-- Warnings one space contributes, as a list. -/
def spaceWarnL (objs : CFObjects) (sp : Space) : List Warning :=
  (spaceFailWarning objs sp).toList

/-- Warnings one application contributes, as a list. -/
def appWarnL (objs : CFObjects) (app : Application) : List Warning :=
  (appFailWarning objs app).toList

/-- Concatenation of the per-element contributions over a list. -/
def listContrib {α β : Type} (g : α → List β) : List α → List β
  | [] => []
  | a :: l => g a ++ listContrib g l

theorem mem_listContrib {α β : Type} (g : α → List β) (l : List α) (b : β) :
    b ∈ listContrib g l ↔ ∃ a, a ∈ l ∧ b ∈ g a := by
  induction l with
  | nil => simp [listContrib]
  | cons x t ih =>
    simp only [listContrib, List.mem_append, ih, List.mem_cons]
    constructor
    · rintro (hb | ⟨a, ha, hb⟩)
      · exact ⟨x, Or.inl rfl, hb⟩
      · exact ⟨a, Or.inr ha, hb⟩
    · rintro ⟨a, (rfl | ha), hb⟩
      · exact Or.inl hb
      · exact Or.inr ⟨a, ha, hb⟩

theorem foldl_insert_eq {α β : Type} [DecidableEq β] (f : α → β) :
    ∀ (l : List α) (s : Finset β),
      l.foldl (fun acc a => insert (f a) acc) s = s ∪ (l.map f).toFinset
  | [], s => by simp
  | a :: l, s => by
    rw [List.foldl_cons, foldl_insert_eq f l (insert (f a) s)]
    ext x
    simp only [Finset.mem_union, Finset.mem_insert, List.map_cons,
      List.toFinset_cons, List.mem_toFinset]
    tauto

theorem orgLoop_eq :
    ∀ (orgs : List Organization) (s : Finset OrgSample),
      orgLoop orgs s = s ∪ (listContrib orgOwn orgs).toFinset
  | [], s => by simp [orgLoop, listContrib]
  | org :: t, s => by
    have h1 : orgLoop (org :: t) s =
        orgLoop t (org.labels.foldl (fun a kv => insert (mkOrgSample org kv) a) s) := rfl
    rw [h1, orgLoop_eq t, foldl_insert_eq]
    ext x
    simp only [listContrib, Finset.mem_union, List.mem_toFinset, List.mem_append, orgOwn]
    tauto

theorem spaceStep_eq (objs : CFObjects) (acc : Finset SpaceSample × List Warning)
    (sp : Space) :
    spaceStep objs acc sp =
      (acc.1 ∪ (spaceContrib objs sp).toFinset, acc.2 ++ spaceWarnL objs sp) := by
  rcases h : sp.orgRel with _ | orgGUID
  · simp [spaceStep, spaceContrib, resolveSpaceOrg, spaceWarnL, spaceFailWarning, h]
  · rcases h2 : idxLookup objs.organizationsMap orgGUID with _ | org
    · simp [spaceStep, spaceContrib, resolveSpaceOrg, spaceWarnL, spaceFailWarning, h, h2]
    · simp [spaceStep, spaceContrib, resolveSpaceOrg, spaceWarnL, spaceFailWarning,
        h, h2, foldl_insert_eq]

theorem appStep_eq (objs : CFObjects) (acc : Finset AppSample × List Warning)
    (app : Application) :
    appStep objs acc app =
      (acc.1 ∪ (appContrib objs app).toFinset, acc.2 ++ appWarnL objs app) := by
  rcases h : app.spaceRel with _ | spaceGUID
  · simp [appStep, appContrib, resolveApp, appWarnL, appFailWarning, h]
  · rcases h2 : idxLookup objs.spacesMap spaceGUID with _ | sp
    · simp [appStep, appContrib, resolveApp, appWarnL, appFailWarning, h, h2]
    · rcases h3 : sp.orgRel with _ | orgGUID
      · simp [appStep, appContrib, resolveApp, resolveSpaceOrg, appWarnL,
          appFailWarning, h, h2, h3]
      · rcases h4 : idxLookup objs.organizationsMap orgGUID with _ | org
        · simp [appStep, appContrib, resolveApp, resolveSpaceOrg, appWarnL,
            appFailWarning, h, h2, h3, h4]
        · simp only [appStep, appContrib, resolveApp, resolveSpaceOrg, appWarnL,
            appFailWarning, h, h2, h3, h4, foldl_insert_eq, Option.toList]
          rw [List.append_nil]
          refine Prod.ext ?_ rfl
          show acc.1 ∪ _ ∪ _ ∪ _ = acc.1 ∪ _
          ext x
          simp only [Finset.mem_union, List.toFinset_append, List.mem_toFinset]
          tauto

theorem spaceLoop_eq (objs : CFObjects) :
    ∀ (l : List Space) (s : Finset SpaceSample) (w : List Warning),
      l.foldl (spaceStep objs) (s, w) =
        (s ∪ (listContrib (spaceContrib objs) l).toFinset,
         w ++ listContrib (spaceWarnL objs) l)
  | [], s, w => by simp [listContrib]
  | sp :: t, s, w => by
    rw [List.foldl_cons, spaceStep_eq, spaceLoop_eq objs t]
    refine Prod.ext ?_ ?_
    · show (s ∪ (spaceContrib objs sp).toFinset) ∪
        (listContrib (spaceContrib objs) t).toFinset = _
      simp [listContrib, Finset.union_assoc]
    · show (w ++ spaceWarnL objs sp) ++ listContrib (spaceWarnL objs) t = _
      simp [listContrib]

theorem appLoop_eq (objs : CFObjects) :
    ∀ (l : List Application) (s : Finset AppSample) (w : List Warning),
      l.foldl (appStep objs) (s, w) =
        (s ∪ (listContrib (appContrib objs) l).toFinset,
         w ++ listContrib (appWarnL objs) l)
  | [], s, w => by simp [listContrib]
  | app :: t, s, w => by
    rw [List.foldl_cons, appStep_eq, appLoop_eq objs t]
    refine Prod.ext ?_ ?_
    · show (s ∪ (appContrib objs app).toFinset) ∪
        (listContrib (appContrib objs) t).toFinset = _
      simp [listContrib, Finset.union_assoc]
    · show (w ++ appWarnL objs app) ++ listContrib (appWarnL objs) t = _
      simp [listContrib]

theorem report_eq (objs : CFObjects) (st : VecState) :
    reportMetadataMetrics objs st =
      { vecs := ⟨st.orgVec ∪ (listContrib orgOwn objs.organizations).toFinset,
                 st.spaceVec ∪ (listContrib (spaceContrib objs) objs.spaces).toFinset,
                 st.appVec ∪ (listContrib (appContrib objs) objs.applications).toFinset⟩
        warnings := listContrib (spaceWarnL objs) objs.spaces ++
          listContrib (appWarnL objs) objs.applications
        err := none } := by
  simp only [reportMetadataMetrics, orgLoop_eq, spaceLoop_eq, appLoop_eq,
    List.nil_append]

end CFExporter

namespace CFExporter

theorem filter_contrib_of_not_mem {α β K : Type} [DecidableEq β] [DecidableEq K]
    (key : α → K) (skey : β → K) (g : α → List β)
    (hg : ∀ a b, b ∈ g a → skey b = key a) :
    ∀ (l : List α) (k : K), k ∉ l.map key →
      (listContrib g l).toFinset.filter (fun b => skey b = k) = ∅
  | [], k, _ => by simp [listContrib]
  | a :: t, k, hk => by
    have hka : key a ≠ k := by
      intro h
      exact hk (by simp [h.symm])
    have hkt : k ∉ t.map key := by
      intro h
      exact hk (by simp [List.mem_map] at h ⊢; tauto)
    rw [show listContrib g (a :: t) = g a ++ listContrib g t from rfl,
      List.toFinset_append, Finset.filter_union,
      filter_contrib_of_not_mem key skey g hg t k hkt]
    rw [Finset.union_empty]
    apply Finset.filter_eq_empty_iff.mpr
    intro b hb
    rw [List.mem_toFinset] at hb
    simp only [hg a b hb]
    exact fun h => hka h

theorem filter_contrib_of_mem {α β K : Type} [DecidableEq β] [DecidableEq K]
    (key : α → K) (skey : β → K) (g : α → List β)
    (hg : ∀ a b, b ∈ g a → skey b = key a) :
    ∀ (l : List α), (l.map key).Nodup → ∀ a, a ∈ l →
      (listContrib g l).toFinset.filter (fun b => skey b = key a) = (g a).toFinset
  | [], _, a, ha => by simp at ha
  | x :: t, hnd, a, ha => by
    rw [List.map_cons, List.nodup_cons] at hnd
    rw [show listContrib g (x :: t) = g x ++ listContrib g t from rfl,
      List.toFinset_append, Finset.filter_union]
    rcases List.mem_cons.mp ha with rfl | hat
    · rw [filter_contrib_of_not_mem key skey g hg t (key a) hnd.1, Finset.union_empty]
      apply Finset.filter_true_of_mem
      intro b hb
      exact hg a b (List.mem_toFinset.mp hb)
    · have hxa : key x ≠ key a := by
        intro h
        exact hnd.1 (h ▸ List.mem_map_of_mem key hat)
      rw [filter_contrib_of_mem key skey g hg t hnd.2 a hat]
      have hx0 : (g x).toFinset.filter (fun b => skey b = key a) = ∅ := by
        apply Finset.filter_eq_empty_iff.mpr
        intro b hb
        rw [List.mem_toFinset] at hb
        simp only [hg x b hb]
        exact fun h => hxa h
      rw [hx0, Finset.empty_union]

theorem string_append_cancel (p a b : String) (h : p ++ a = p ++ b) : a = b := by
  have hd : (p ++ a).data = (p ++ b).data := congrArg String.data h
  rw [String.data_append, String.data_append] at hd
  exact String.ext (List.append_cancel_left hd)

theorem card_map_toFinset {α β : Type} [DecidableEq β] (f : α → β) (l : List α)
    (hinj : ∀ x ∈ l, ∀ y ∈ l, f x = f y → x = y) (hl : l.Nodup) :
    (l.map f).toFinset.card = l.length := by
  rw [List.toFinset_card_of_nodup (hl.map_on hinj), List.length_map]

theorem labels_nodup_of_keys {l : Labels}
    (h : (l.map Prod.fst).Nodup) : l.Nodup :=
  List.Nodup.of_map Prod.fst h

end CFExporter

namespace CFExporter

/-- Example organization o1 of spec testable property 7. -/
def org1 : Organization := ⟨"o1", "org1", [("team", "x")]⟩

/-- Example space s1 of spec testable property 7 (empty label set). -/
def space1 : Space := ⟨"s1", "space1", some "o1", []⟩

/-- Example application a1 of spec testable property 7. -/
def app1 : Application := ⟨"a1", "app1", some "s1", [("env", "prod")]⟩

/-- Example snapshot of spec testable property 7. -/
def exampleObjs : CFObjects :=
  { organizations := [org1]
    spaces := [space1]
    applications := [app1]
    organizationsMap := [("o1", org1)]
    spacesMap := [("s1", space1)]
    error := none
    took := 0 }

/-- Claim C9: on the concrete snapshot with organization o1 (labels team=x),
space s1 (org o1, no labels) and application a1 (space s1, labels env=prod),
the render pass emits exactly the organization sample (o1, org1, team, x)
with value 1, the application own sample (env, prod) and the org-inherited
sample (org_team, x), and no space samples and no space-prefixed application
samples. -/
theorem end_to_end_example_samples :
    (renderPass exampleObjs).vecs.orgVec = {⟨"o1", "org1", "team", "x", 1⟩} ∧
    (renderPass exampleObjs).vecs.spaceVec = ∅ ∧
    (renderPass exampleObjs).vecs.appVec =
      {⟨"a1", "app1", "o1", "org1", "s1", "space1", "env", "prod", 1⟩,
       ⟨"a1", "app1", "o1", "org1", "s1", "space1", "org_team", "x", 1⟩} := by
  decide

/-- Organization present only in the second scrape snapshot. -/
def org2 : Organization := ⟨"o2", "org2", [("owner", "y")]⟩

/-- Second scrape snapshot: contains only organization o2, no trace of o1. -/
def objsB : CFObjects :=
  { organizations := [org2]
    spaces := []
    applications := []
    organizationsMap := [("o2", org2)]
    spacesMap := []
    error := none
    took := 0 }

/-- Two consecutive Collect invocations on one collector: first on the
snapshot containing o1, then on the snapshot containing only o2. -/
def secondScrape : CollectorState × Emission × List Warning :=
  Collect (Collect NewMetadataCollector exampleObjs 0).1 objsB 1

/-- Claim C8 evaluation: the organization sample written for o1 during the
first scrape is emitted again by the second scrape, although o1 does not
occur in the second snapshot — the GaugeVec children persist in the
collector across Collect calls and are never reset, so detail samples of a
prior scrape leak into the current emission. -/
theorem cross_scrape_retention_evaluation :
    mkOrgSample org1 ("team", "x") ∈ (emittedDetail secondScrape.2.1).orgVec ∧
    org1 ∉ objsB.organizations ∧
    (∀ o, o ∈ objsB.organizations → o.guid ≠ org1.guid) := by
  decide

/-- Claim C3: when session establishment fails, fetch returns the fresh
snapshot carrying only the session error: every category collection and
index is empty, the task plan is never built and no task executes,
whatever the filter set and whatever the tasks would have written. -/
theorem session_error_short_circuits (e : String) (f : CatFilter)
    (taskEffect : String → CFObjects → CFObjects) (doError : Option String) :
    (fetch (some e) f taskEffect doError).result.error = some e ∧
    (fetch (some e) f taskEffect doError).result.organizations = [] ∧
    (fetch (some e) f taskEffect doError).result.spaces = [] ∧
    (fetch (some e) f taskEffect doError).result.applications = [] ∧
    (fetch (some e) f taskEffect doError).result.organizationsMap = [] ∧
    (fetch (some e) f taskEffect doError).result.spacesMap = [] ∧
    (fetch (some e) f taskEffect doError).planBuilt = none ∧
    (fetch (some e) f taskEffect doError).tasksExecuted = [] :=
  ⟨rfl, rfl, rfl, rfl, rfl, rfl, rfl, rfl⟩

theorem mem_pushIf {f : CatFilter} {n : String} {flags : List Category}
    {plan : List String} {x : String} (h : x ∈ plan) : x ∈ pushIf f n flags plan := by
  unfold pushIf
  split
  · exact List.mem_append.mpr (Or.inl h)
  · exact h

/-- Claim C7: whenever the applications category is enabled, the plan built
by workInit contains the organizations and spaces tasks even if those flags
are disabled; whenever the metadata category is enabled, the plan contains
the organizations, spaces and applications tasks unconditionally. -/
theorem plan_dependency_overrides (f : CatFilter) :
    (f Category.applications = true →
      "organizations" ∈ workInit f ∧ "spaces" ∈ workInit f) ∧
    (f Category.metadata = true →
      "organizations" ∈ workInit f ∧ "spaces" ∈ workInit f ∧
        "applications" ∈ workInit f) := by
  have core : ∀ x : String,
      x ∈ (if f Category.metadata then
             ["info"] ++ ["organizations", "spaces", "applications"]
           else
             pushIf f "applications" [Category.applications]
               (pushIf f "spaces" [Category.applications, Category.spaces]
                 (pushIf f "organizations"
                   [Category.applications, Category.organizations] ["info"]))) →
      x ∈ workInit f := by
    intro x hx
    simp only [workInit]
    repeat apply mem_pushIf
    exact hx
  constructor
  · intro hApp
    by_cases hm : f Category.metadata
    · constructor
      · exact core _ (by simp [hm])
      · exact core _ (by simp [hm])
    · rw [Bool.not_eq_true] at hm
      constructor
      · refine core _ ?_
        simp only [hm, if_neg Bool.false_ne_true]
        apply mem_pushIf
        apply mem_pushIf
        simp [pushIf, hApp]
      · refine core _ ?_
        simp only [hm, if_neg Bool.false_ne_true]
        apply mem_pushIf
        simp [pushIf, hApp]
  · intro hm
    refine ⟨core _ (by simp [hm]), core _ (by simp [hm]), core _ (by simp [hm])⟩

/-- Filter set enabling only the applications category. -/
def filterAppsOnly : CatFilter := fun c => decide (c = Category.applications)

/-- Filter set enabling only the metadata category. -/
def filterMetadataOnly : CatFilter := fun c => decide (c = Category.metadata)

/-- Witness for plan_dependency_overrides at two concrete filter sets. -/
theorem plan_dependency_overrides_witness :
    ("organizations" ∈ workInit filterAppsOnly ∧ "spaces" ∈ workInit filterAppsOnly) ∧
    ("organizations" ∈ workInit filterMetadataOnly ∧
      "spaces" ∈ workInit filterMetadataOnly ∧
      "applications" ∈ workInit filterMetadataOnly) :=
  ⟨(plan_dependency_overrides filterAppsOnly).1 (by decide),
   (plan_dependency_overrides filterMetadataOnly).2 (by decide)⟩

end CFExporter

namespace CFExporter

/-- Claim C10: reportMetadataMetrics returns nil on every input snapshot and
every GaugeVec state, so the branch of Collect that reacts to a failing
detail walk is unreachable; consequently the error flag emitted by Collect
equals 1 exactly when the snapshot carries a top-level error. -/
theorem walk_never_fails (objs : CFObjects) (st : VecState)
    (c : CollectorState) (now : Int) :
    (reportMetadataMetrics objs st).err = none ∧
    ((Collect c objs now).2.1.lastError = 1 ↔ objs.error.isSome) := by
  refine ⟨rfl, ?_⟩
  cases h : objs.error <;> simp [Collect, h, report_eq]

/-- Claim C2: on a snapshot whose top-level error is set, Collect does not
attempt the detail walk and emits zero detail samples, sets the error flag
gauge to 1, increments the scrape-error counter by exactly one, and still
increments the scrape-attempt counter by exactly one. -/
theorem top_level_error_scrape (c : CollectorState) (objs : CFObjects)
    (now : Int) (e : String) (h : objs.error = some e) :
    (Collect c objs now).2.1.detail = none ∧
    detailSampleCount (Collect c objs now).2.1 = 0 ∧
    (Collect c objs now).2.1.lastError = 1 ∧
    (Collect c objs now).1.scrapeErrorsTotal = c.scrapeErrorsTotal + 1 ∧
    (Collect c objs now).2.1.scrapeErrorsTotal = c.scrapeErrorsTotal + 1 ∧
    (Collect c objs now).1.scrapesTotal = c.scrapesTotal + 1 ∧
    (Collect c objs now).2.1.scrapesTotal = c.scrapesTotal + 1 := by
  simp [Collect, h, detailSampleCount, emittedDetail]

/-- Snapshot carrying a top-level session error. -/
def errObjs : CFObjects := { NewCFObjects with error := some "session failure" }

/-- Witness for top_level_error_scrape at a concrete errored snapshot. -/
theorem top_level_error_scrape_witness :
    errObjs.error = some "session failure" ∧
    ((Collect NewMetadataCollector errObjs 7).2.1.detail = none ∧
     detailSampleCount (Collect NewMetadataCollector errObjs 7).2.1 = 0 ∧
     (Collect NewMetadataCollector errObjs 7).2.1.lastError = 1 ∧
     (Collect NewMetadataCollector errObjs 7).1.scrapeErrorsTotal =
       NewMetadataCollector.scrapeErrorsTotal + 1 ∧
     (Collect NewMetadataCollector errObjs 7).2.1.scrapeErrorsTotal =
       NewMetadataCollector.scrapeErrorsTotal + 1 ∧
     (Collect NewMetadataCollector errObjs 7).1.scrapesTotal =
       NewMetadataCollector.scrapesTotal + 1 ∧
     (Collect NewMetadataCollector errObjs 7).2.1.scrapesTotal =
       NewMetadataCollector.scrapesTotal + 1) :=
  ⟨rfl, top_level_error_scrape NewMetadataCollector errObjs 7 "session failure" rfl⟩

/-- Claim C6: on a snapshot without a top-level error the detail walk runs
and succeeds, the error flag gauge is set to 0, the scrape-error counter is
unchanged and the scrape-attempt counter increments by exactly one; and on
every invocation whatever the outcome, the timestamp gauge is set to the
current time and the duration gauge to the snapshot Took value. -/
theorem successful_scrape_bookkeeping (c c2 : CollectorState)
    (objs objs2 : CFObjects) (now now2 : Int) (h : objs.error = none) :
    (Collect c objs now).2.1.lastError = 0 ∧
    (Collect c objs now).1.scrapeErrorsTotal = c.scrapeErrorsTotal ∧
    (Collect c objs now).2.1.scrapeErrorsTotal = c.scrapeErrorsTotal ∧
    (Collect c objs now).1.scrapesTotal = c.scrapesTotal + 1 ∧
    (Collect c objs now).2.1.scrapesTotal = c.scrapesTotal + 1 ∧
    (Collect c objs now).2.1.detail = some (reportMetadataMetrics objs c.vecs).vecs ∧
    (Collect c2 objs2 now2).2.1.lastTimestamp = now2 ∧
    (Collect c2 objs2 now2).2.1.lastDuration = objs2.took := by
  have hgen : ∀ (c3 : CollectorState) (objs3 : CFObjects) (now3 : Int),
      (Collect c3 objs3 now3).2.1.lastTimestamp = now3 ∧
      (Collect c3 objs3 now3).2.1.lastDuration = objs3.took := by
    intro c3 objs3 now3
    cases h3 : objs3.error <;> simp [Collect, h3, report_eq]
  refine ⟨?_, ?_, ?_, ?_, ?_, ?_, (hgen c2 objs2 now2).1, (hgen c2 objs2 now2).2⟩ <;>
    simp [Collect, h, report_eq]

/-- Witness for successful_scrape_bookkeeping: a healthy snapshot for the
success part and an errored snapshot for the always-updated gauges part. -/
theorem successful_scrape_bookkeeping_witness :
    exampleObjs.error = none ∧
    ((Collect NewMetadataCollector exampleObjs 5).2.1.lastError = 0 ∧
     (Collect NewMetadataCollector exampleObjs 5).1.scrapeErrorsTotal =
       NewMetadataCollector.scrapeErrorsTotal ∧
     (Collect NewMetadataCollector exampleObjs 5).2.1.scrapeErrorsTotal =
       NewMetadataCollector.scrapeErrorsTotal ∧
     (Collect NewMetadataCollector exampleObjs 5).1.scrapesTotal =
       NewMetadataCollector.scrapesTotal + 1 ∧
     (Collect NewMetadataCollector exampleObjs 5).2.1.scrapesTotal =
       NewMetadataCollector.scrapesTotal + 1 ∧
     (Collect NewMetadataCollector exampleObjs 5).2.1.detail =
       some (reportMetadataMetrics exampleObjs NewMetadataCollector.vecs).vecs ∧
     (Collect NewMetadataCollector errObjs 9).2.1.lastTimestamp = 9 ∧
     (Collect NewMetadataCollector errObjs 9).2.1.lastDuration = errObjs.took) :=
  ⟨rfl, successful_scrape_bookkeeping NewMetadataCollector NewMetadataCollector
    exampleObjs errObjs 5 9 rfl⟩

end CFExporter

namespace CFExporter

theorem renderPass_orgVec (objs : CFObjects) :
    (renderPass objs).vecs.orgVec = (listContrib orgOwn objs.organizations).toFinset := by
  simp [renderPass, report_eq]

theorem renderPass_spaceVec (objs : CFObjects) :
    (renderPass objs).vecs.spaceVec =
      (listContrib (spaceContrib objs) objs.spaces).toFinset := by
  simp [renderPass, report_eq]

theorem renderPass_appVec (objs : CFObjects) :
    (renderPass objs).vecs.appVec =
      (listContrib (appContrib objs) objs.applications).toFinset := by
  simp [renderPass, report_eq]

theorem renderPass_warnings (objs : CFObjects) :
    (renderPass objs).warnings =
      listContrib (spaceWarnL objs) objs.spaces ++
        listContrib (appWarnL objs) objs.applications := by
  simp [renderPass, report_eq]

theorem orgOwn_id (a : Organization) (b : OrgSample) (hb : b ∈ orgOwn a) :
    b.organization_id = a.guid := by
  rcases List.mem_map.mp hb with ⟨kv, _, rfl⟩
  rfl

/-- Claim C5: for every organization in the snapshot with label set L, the
render pass emits exactly one organization sample per label entry — |L| in
total, keyed by the organization GUID and name plus that label key and
value — and every such sample has value 1. Key uniqueness of the Go label
map and GUID uniqueness across organizations appear as Nodup hypotheses. -/
theorem organization_label_samples (objs : CFObjects) (org : Organization)
    (ho : org ∈ objs.organizations)
    (hguids : (objs.organizations.map Organization.guid).Nodup)
    (hkeys : (org.labels.map Prod.fst).Nodup) :
    (renderPass objs).vecs.orgVec.filter
        (fun s => s.organization_id = org.guid) = (orgOwn org).toFinset ∧
    ((renderPass objs).vecs.orgVec.filter
        (fun s => s.organization_id = org.guid)).card = org.labels.length ∧
    (∀ s ∈ (renderPass objs).vecs.orgVec.filter
        (fun s => s.organization_id = org.guid),
      s.organization_name = org.name ∧ s.value = 1) := by
  have hfilter := filter_contrib_of_mem Organization.guid OrgSample.organization_id
    orgOwn orgOwn_id objs.organizations hguids org ho
  have h1 : (renderPass objs).vecs.orgVec.filter
      (fun s => s.organization_id = org.guid) = (orgOwn org).toFinset := by
    rw [renderPass_orgVec]
    exact hfilter
  refine ⟨h1, ?_, ?_⟩
  · rw [h1]
    apply card_map_toFinset
    · intro x _ y _ hxy
      simp only [mkOrgSample, OrgSample.mk.injEq] at hxy
      exact Prod.ext hxy.2.2.1 hxy.2.2.2.1
    · exact labels_nodup_of_keys hkeys
  · intro s hs
    rw [h1, List.mem_toFinset] at hs
    rcases List.mem_map.mp hs with ⟨kv, _, rfl⟩
    exact ⟨rfl, rfl⟩

/-- Witness for organization_label_samples on the concrete example snapshot. -/
theorem organization_label_samples_witness :
    org1 ∈ exampleObjs.organizations ∧
    ((renderPass exampleObjs).vecs.orgVec.filter
        (fun s => s.organization_id = org1.guid) = (orgOwn org1).toFinset ∧
     ((renderPass exampleObjs).vecs.orgVec.filter
        (fun s => s.organization_id = org1.guid)).card = org1.labels.length ∧
     (∀ s ∈ (renderPass exampleObjs).vecs.orgVec.filter
        (fun s => s.organization_id = org1.guid),
       s.organization_name = org1.name ∧ s.value = 1)) :=
  ⟨by decide,
   organization_label_samples exampleObjs org1 (by decide) (by decide) (by decide)⟩

end CFExporter

namespace CFExporter

theorem appContrib_id (objs : CFObjects) (a : Application) (b : AppSample)
    (hb : b ∈ appContrib objs a) : b.application_id = a.guid := by
  rcases hres : resolveApp objs a with _ | ⟨sp, org⟩
  · simp [appContrib, hres] at hb
  · simp only [appContrib, hres] at hb
    rcases List.mem_append.mp hb with hb1 | hb3
    · rcases List.mem_append.mp hb1 with hb1a | hb2
      · rcases List.mem_map.mp hb1a with ⟨kv, _, rfl⟩
        rfl
      · rcases List.mem_map.mp hb2 with ⟨kv, _, rfl⟩
        rfl
    · rcases List.mem_map.mp hb3 with ⟨kv, _, rfl⟩
      rfl

theorem mkAppOwnSample_inj (app : Application) (sp : Space) (org : Organization)
    (x y : String × String) (h : mkAppOwnSample app sp org x = mkAppOwnSample app sp org y) :
    x = y := by
  simp only [mkAppOwnSample, AppSample.mk.injEq] at h
  obtain ⟨-, -, -, -, -, -, hk, hv, -⟩ := h
  exact Prod.ext hk hv

theorem mkAppOrgSample_inj (app : Application) (sp : Space) (org : Organization)
    (x y : String × String) (h : mkAppOrgSample app sp org x = mkAppOrgSample app sp org y) :
    x = y := by
  simp only [mkAppOrgSample, AppSample.mk.injEq] at h
  obtain ⟨-, -, -, -, -, -, hk, hv, -⟩ := h
  exact Prod.ext (string_append_cancel "org_" x.1 y.1 hk) hv

theorem mkAppSpaceSample_inj (app : Application) (sp : Space) (org : Organization)
    (x y : String × String) (h : mkAppSpaceSample app sp org x = mkAppSpaceSample app sp org y) :
    x = y := by
  simp only [mkAppSpaceSample, AppSample.mk.injEq] at h
  obtain ⟨-, -, -, -, -, -, hk, hv, -⟩ := h
  exact Prod.ext (string_append_cancel "space_" x.1 y.1 hk) hv

/-- The own-label sample group of one application in one render pass. -/
def appOwnGroup (app : Application) (sp : Space) (org : Organization) : Finset AppSample :=
  (app.labels.map (mkAppOwnSample app sp org)).toFinset

/-- The org-prefixed sample group of one application in one render pass. -/
def appOrgGroup (app : Application) (sp : Space) (org : Organization) : Finset AppSample :=
  (org.labels.map (mkAppOrgSample app sp org)).toFinset

/-- The space-prefixed sample group of one application in one render pass. -/
def appSpaceGroup (app : Application) (sp : Space) (org : Organization) : Finset AppSample :=
  (sp.labels.map (mkAppSpaceSample app sp org)).toFinset

/-- Claim C1 (amended): for an application whose space and organization both
resolve, the render pass emits exactly the three sample groups — own labels
unprefixed, organization labels prefixed org_, space labels prefixed
space_ — all keyed by the application, organization and space identities;
and the total application-sample count equals |app labels| + |org labels| +
|space labels| provided the three groups are pairwise disjoint (samples
whose full label tuples coincide share one GaugeVec child, so colliding
groups merge; the unconditional count of the original claim fails, see the
counterexample). -/
theorem application_sample_groups (objs : CFObjects) (app : Application)
    (sg og : String) (sp : Space) (org : Organization)
    (ha : app ∈ objs.applications)
    (hguids : (objs.applications.map Application.guid).Nodup)
    (h1 : app.spaceRel = some sg)
    (h2 : idxLookup objs.spacesMap sg = some sp)
    (h3 : sp.orgRel = some og)
    (h4 : idxLookup objs.organizationsMap og = some org)
    (hka : (app.labels.map Prod.fst).Nodup)
    (hko : (org.labels.map Prod.fst).Nodup)
    (hks : (sp.labels.map Prod.fst).Nodup)
    (d1 : appOwnGroup app sp org ∩ appOrgGroup app sp org = ∅)
    (d2 : appOwnGroup app sp org ∩ appSpaceGroup app sp org = ∅)
    (d3 : appOrgGroup app sp org ∩ appSpaceGroup app sp org = ∅) :
    (renderPass objs).vecs.appVec.filter (fun s => s.application_id = app.guid) =
      appOwnGroup app sp org ∪ appOrgGroup app sp org ∪ appSpaceGroup app sp org ∧
    ((renderPass objs).vecs.appVec.filter (fun s => s.application_id = app.guid)).card =
      app.labels.length + org.labels.length + sp.labels.length := by
  have hres : resolveApp objs app = some (sp, org) := by
    simp [resolveApp, resolveSpaceOrg, h1, h2, h3, h4]
  have hfilter := filter_contrib_of_mem Application.guid AppSample.application_id
    (appContrib objs) (appContrib_id objs) objs.applications hguids app ha
  have hcontrib : (appContrib objs app).toFinset =
      appOwnGroup app sp org ∪ appOrgGroup app sp org ∪ appSpaceGroup app sp org := by
    simp [appContrib, hres, appOwnGroup, appOrgGroup, appSpaceGroup, List.toFinset_append]
  have hmain : (renderPass objs).vecs.appVec.filter
      (fun s => s.application_id = app.guid) =
      appOwnGroup app sp org ∪ appOrgGroup app sp org ∪ appSpaceGroup app sp org := by
    rw [renderPass_appVec, hfilter]
    exact hcontrib
  refine ⟨hmain, ?_⟩
  rw [hmain]
  have dj1 : Disjoint (appOwnGroup app sp org) (appOrgGroup app sp org) :=
    Finset.disjoint_iff_inter_eq_empty.mpr d1
  have dj2 : Disjoint (appOwnGroup app sp org ∪ appOrgGroup app sp org)
      (appSpaceGroup app sp org) := by
    rw [Finset.disjoint_union_left]
    exact ⟨Finset.disjoint_iff_inter_eq_empty.mpr d2,
      Finset.disjoint_iff_inter_eq_empty.mpr d3⟩
  rw [Finset.card_union_of_disjoint dj2, Finset.card_union_of_disjoint dj1]
  have ca : (appOwnGroup app sp org).card = app.labels.length := by
    simp only [appOwnGroup]
    exact card_map_toFinset _ _ (fun x _ y _ h => mkAppOwnSample_inj app sp org x y h)
      (labels_nodup_of_keys hka)
  have cb : (appOrgGroup app sp org).card = org.labels.length := by
    simp only [appOrgGroup]
    exact card_map_toFinset _ _ (fun x _ y _ h => mkAppOrgSample_inj app sp org x y h)
      (labels_nodup_of_keys hko)
  have cc : (appSpaceGroup app sp org).card = sp.labels.length := by
    simp only [appSpaceGroup]
    exact card_map_toFinset _ _ (fun x _ y _ h => mkAppSpaceSample_inj app sp org x y h)
      (labels_nodup_of_keys hks)
  rw [ca, cb, cc]

/-- Space with a label, used by the application group witness. -/
def spaceW : Space := ⟨"s1", "space1", some "o1", [("tier", "db")]⟩

/-- Witness snapshot where all three application sample groups are nonempty. -/
def objsW : CFObjects :=
  { organizations := [org1]
    spaces := [spaceW]
    applications := [app1]
    organizationsMap := [("o1", org1)]
    spacesMap := [("s1", spaceW)]
    error := none
    took := 0 }

/-- Witness for application_sample_groups on a concrete snapshot with
nonempty, pairwise disjoint groups. -/
theorem application_sample_groups_witness :
    app1 ∈ objsW.applications ∧
    ((renderPass objsW).vecs.appVec.filter (fun s => s.application_id = app1.guid) =
       appOwnGroup app1 spaceW org1 ∪ appOrgGroup app1 spaceW org1 ∪
         appSpaceGroup app1 spaceW org1 ∧
     ((renderPass objsW).vecs.appVec.filter (fun s => s.application_id = app1.guid)).card =
       app1.labels.length + org1.labels.length + spaceW.labels.length) :=
  ⟨by decide,
   application_sample_groups objsW app1 "s1" "o1" spaceW org1 (by decide) (by decide)
     (by decide) (by decide) (by decide) (by decide) (by decide) (by decide) (by decide)
     (by decide) (by decide) (by decide)⟩

/-- Organization whose label team=x collides, once prefixed, with the
application own label org_team=x. -/
def orgX : Organization := ⟨"ox", "orgx", [("team", "x")]⟩

/-- Space of the collision snapshot (no labels). -/
def spaceX : Space := ⟨"sx", "spacex", some "ox", []⟩

/-- Application whose own label key org_team collides with the prefixed
organization label. -/
def appX : Application := ⟨"ax", "appx", some "sx", [("org_team", "x")]⟩

/-- Collision snapshot for the counterexample to the unconditional count. -/
def objsX : CFObjects :=
  { organizations := [orgX]
    spaces := [spaceX]
    applications := [appX]
    organizationsMap := [("ox", orgX)]
    spacesMap := [("sx", spaceX)]
    error := none
    took := 0 }

/-- Claim C1 counterexample: application appX resolves its space and
organization, but its own label key org_team with value x produces the same
label tuple as the org-prefixed form of the organization label team=x, so
both writes land on one GaugeVec child: 1 sample is emitted although
|app labels| + |org labels| + |space labels| = 2. -/
theorem application_sample_count_counterexample :
    resolveApp objsX appX = some (spaceX, orgX) ∧
    ((renderPass objsX).vecs.appVec.filter
        (fun s => s.application_id = appX.guid)).card = 1 ∧
    appX.labels.length + orgX.labels.length + spaceX.labels.length = 2 := by
  decide

end CFExporter

namespace CFExporter

theorem spaceContrib_id (objs : CFObjects) (a : Space) (b : SpaceSample)
    (hb : b ∈ spaceContrib objs a) : b.space_id = a.guid := by
  rcases hres : resolveSpaceOrg objs a with _ | org
  · simp [spaceContrib, hres] at hb
  · simp only [spaceContrib, hres] at hb
    rcases List.mem_map.mp hb with ⟨kv, _, rfl⟩
    rfl

/-- Claim C4: on a snapshot without a top-level error, every space or
application whose ancestor resolution fails yields zero detail samples for
that entity while its warning is recorded; every entity that does resolve is
still fully rendered; and the pass reports no error. GUID uniqueness across
spaces and across applications reflects the data model. -/
theorem resolution_gap_handling (objs : CFObjects)
    (_herr : objs.error = none)
    (hs : (objs.spaces.map Space.guid).Nodup)
    (ha : (objs.applications.map Application.guid).Nodup) :
    (renderPass objs).err = none ∧
    (∀ sp, sp ∈ objs.spaces → resolveSpaceOrg objs sp = none →
      (renderPass objs).vecs.spaceVec.filter (fun x => x.space_id = sp.guid) = ∅ ∧
      ∀ w, spaceFailWarning objs sp = some w → w ∈ (renderPass objs).warnings) ∧
    (∀ app, app ∈ objs.applications → resolveApp objs app = none →
      (renderPass objs).vecs.appVec.filter
        (fun x => x.application_id = app.guid) = ∅ ∧
      ∀ w, appFailWarning objs app = some w → w ∈ (renderPass objs).warnings) ∧
    (∀ sp org, sp ∈ objs.spaces → resolveSpaceOrg objs sp = some org →
      ∀ kv, kv ∈ sp.labels →
        mkSpaceSample sp org kv ∈ (renderPass objs).vecs.spaceVec) ∧
    (∀ app sp org, app ∈ objs.applications → resolveApp objs app = some (sp, org) →
      ∀ kv,
        (kv ∈ app.labels →
          mkAppOwnSample app sp org kv ∈ (renderPass objs).vecs.appVec) ∧
        (kv ∈ org.labels →
          mkAppOrgSample app sp org kv ∈ (renderPass objs).vecs.appVec) ∧
        (kv ∈ sp.labels →
          mkAppSpaceSample app sp org kv ∈ (renderPass objs).vecs.appVec)) := by
  refine ⟨rfl, ?_, ?_, ?_, ?_⟩
  · intro sp hsp hres
    constructor
    · rw [renderPass_spaceVec,
        filter_contrib_of_mem Space.guid SpaceSample.space_id (spaceContrib objs)
          (spaceContrib_id objs) objs.spaces hs sp hsp]
      simp [spaceContrib, hres]
    · intro w hw
      rw [renderPass_warnings]
      apply List.mem_append_left
      rw [mem_listContrib]
      exact ⟨sp, hsp, by simp [spaceWarnL, hw]⟩
  · intro app happ hres
    constructor
    · rw [renderPass_appVec,
        filter_contrib_of_mem Application.guid AppSample.application_id
          (appContrib objs) (appContrib_id objs) objs.applications ha app happ]
      simp [appContrib, hres]
    · intro w hw
      rw [renderPass_warnings]
      apply List.mem_append_right
      rw [mem_listContrib]
      exact ⟨app, happ, by simp [appWarnL, hw]⟩
  · intro sp org hsp hres kv hkv
    rw [renderPass_spaceVec, List.mem_toFinset, mem_listContrib]
    refine ⟨sp, hsp, ?_⟩
    simp only [spaceContrib, hres]
    exact List.mem_map_of_mem _ hkv
  · intro app sp org happ hres kv
    refine ⟨?_, ?_, ?_⟩ <;> intro hkv <;>
      rw [renderPass_appVec, List.mem_toFinset, mem_listContrib] <;>
      refine ⟨app, happ, ?_⟩ <;> simp only [appContrib, hres]
    · exact List.mem_append.mpr (Or.inl (List.mem_append.mpr
        (Or.inl (List.mem_map_of_mem _ hkv))))
    · exact List.mem_append.mpr (Or.inl (List.mem_append.mpr
        (Or.inr (List.mem_map_of_mem _ hkv))))
    · exact List.mem_append.mpr (Or.inr (List.mem_map_of_mem _ hkv))

/-- Space with an absent organization relationship. -/
def spaceBadRel : Space := ⟨"sbr", "spacebr", none, [("a", "b")]⟩

/-- Space whose referenced organization is missing from the index. -/
def spaceBadOrg : Space := ⟨"sbo", "spacebo", some "ghost", [("c", "d")]⟩

/-- Application whose referenced space is missing from the index. -/
def appBad : Application := ⟨"ab", "appb", some "ghost", [("e", "f")]⟩

/-- Witness snapshot mixing failing and resolving spaces and applications. -/
def objsY : CFObjects :=
  { organizations := [org1]
    spaces := [spaceBadRel, spaceBadOrg, space1]
    applications := [appBad, app1]
    organizationsMap := [("o1", org1)]
    spacesMap := [("s1", space1)]
    error := none
    took := 0 }

/-- Witness for resolution_gap_handling on the mixed concrete snapshot. -/
theorem resolution_gap_handling_witness :
    (renderPass objsY).err = none ∧
    (∀ sp, sp ∈ objsY.spaces → resolveSpaceOrg objsY sp = none →
      (renderPass objsY).vecs.spaceVec.filter (fun x => x.space_id = sp.guid) = ∅ ∧
      ∀ w, spaceFailWarning objsY sp = some w → w ∈ (renderPass objsY).warnings) ∧
    (∀ app, app ∈ objsY.applications → resolveApp objsY app = none →
      (renderPass objsY).vecs.appVec.filter
        (fun x => x.application_id = app.guid) = ∅ ∧
      ∀ w, appFailWarning objsY app = some w → w ∈ (renderPass objsY).warnings) ∧
    (∀ sp org, sp ∈ objsY.spaces → resolveSpaceOrg objsY sp = some org →
      ∀ kv, kv ∈ sp.labels →
        mkSpaceSample sp org kv ∈ (renderPass objsY).vecs.spaceVec) ∧
    (∀ app sp org, app ∈ objsY.applications → resolveApp objsY app = some (sp, org) →
      ∀ kv,
        (kv ∈ app.labels →
          mkAppOwnSample app sp org kv ∈ (renderPass objsY).vecs.appVec) ∧
        (kv ∈ org.labels →
          mkAppOrgSample app sp org kv ∈ (renderPass objsY).vecs.appVec) ∧
        (kv ∈ sp.labels →
          mkAppSpaceSample app sp org kv ∈ (renderPass objsY).vecs.appVec)) :=
  resolution_gap_handling objsY rfl (by decide) (by decide)

end CFExporter

namespace CFExporter

/-- Witness for session_error_short_circuits at a concrete configuration. -/
theorem session_error_short_circuits_witness :
    (fetch (some "auth failed") filterAppsOnly (fun _ r => r) none).result.error =
      some "auth failed" ∧
    (fetch (some "auth failed") filterAppsOnly (fun _ r => r) none).result.organizations = [] ∧
    (fetch (some "auth failed") filterAppsOnly (fun _ r => r) none).result.spaces = [] ∧
    (fetch (some "auth failed") filterAppsOnly (fun _ r => r) none).result.applications = [] ∧
    (fetch (some "auth failed") filterAppsOnly (fun _ r => r) none).result.organizationsMap = [] ∧
    (fetch (some "auth failed") filterAppsOnly (fun _ r => r) none).result.spacesMap = [] ∧
    (fetch (some "auth failed") filterAppsOnly (fun _ r => r) none).planBuilt = none ∧
    (fetch (some "auth failed") filterAppsOnly (fun _ r => r) none).tasksExecuted = [] :=
  session_error_short_circuits "auth failed" filterAppsOnly (fun _ r => r) none

/-- Witness for walk_never_fails at a concrete snapshot and collector state. -/
theorem walk_never_fails_witness :
    (reportMetadataMetrics exampleObjs ⟨∅, ∅, ∅⟩).err = none ∧
    ((Collect NewMetadataCollector exampleObjs 3).2.1.lastError = 1 ↔
      exampleObjs.error.isSome) :=
  walk_never_fails exampleObjs ⟨∅, ∅, ∅⟩ NewMetadataCollector 3

end CFExporter
